import Mathlib

/-!
Shallow embedding of the `paperdoll` crate (dolls / slots / fragments, id
allocation, analyse and render pipeline) together with theorems checking the
natural-language specification against it.

Modelling conventions:
* `u32` ids become `Nat`; the id space size `2 ^ 32` is explicit where the
  id allocator wraps.
* `f32` coordinates (`Point`) become `ℚ` with exact componentwise `+`/`-`,
  matching the expressions the source computes.
* `BTreeMap`/`HashMap` become association lists with `List.lookup`; keys are
  unique in every state the library itself constructs.
* Fallible code returns `Option`/`Except`; a Rust panic (out-of-bounds slice,
  or a loop that cannot terminate) is modelled as `none`.
* Purely descriptive fields (`desc`, `path`, `Meta`, and the one-variant
  `ColorType`) carry no behaviour and are omitted from the embedding.
-/

/-- A coordinate, from `common.rs`. The source stores `f32`; the embedding
uses exact rationals with the same componentwise arithmetic. -/
structure Point where
  x : ℚ
  y : ℚ
deriving DecidableEq

instance : Add Point :=
  ⟨fun a b => ⟨a.x + b.x, a.y + b.y⟩⟩

instance : Sub Point :=
  ⟨fun a b => ⟨a.x - b.x, a.y - b.y⟩⟩

/-- Image payload, from `image.rs` (`color_type` has a single variant and is
omitted). Bytes are `Nat`s; the source keeps `u8`s. -/
structure ImageData where
  width : Nat
  height : Nat
  pixels : List Nat
deriving DecidableEq

/-- `ImageData::is_empty`: only the pixel buffer is consulted. -/
def ImageData.is_empty (img : ImageData) : Bool :=
  img.pixels.isEmpty

/-- A slot, from `slot.rs` (the `desc` string is omitted). The field name
`constrainted` is kept as spelled in the source. -/
structure Slot where
  id : Nat
  required : Bool
  constrainted : Bool
  positions : List Point
  width : Nat
  height : Nat
  anchor : Point
  candidates : List Nat
deriving DecidableEq

/-- A doll, from `doll.rs` (`desc` and `path` strings omitted). -/
structure Doll where
  id : Nat
  width : Nat
  height : Nat
  offset : Point
  slots : List Nat
  image : ImageData
deriving DecidableEq

/-- A fragment, from `fragment.rs` (`desc` and `path` strings omitted). -/
structure Fragment where
  id : Nat
  pivot : Point
  image : ImageData
deriving DecidableEq

/-- One drawable unit, from `render_material.rs`. -/
structure RenderPiece where
  id : Nat
  position : Point
  image : ImageData
deriving DecidableEq

/-- The resolved structure of one render request, from `render_material.rs`. -/
structure RenderMaterial where
  width : Nat
  height : Nat
  doll : Option RenderPiece
  slots : List RenderPiece
deriving DecidableEq

instance {e a : Type} [DecidableEq e] [DecidableEq a] : DecidableEq (Except e a) :=
  fun x y =>
    match x, y with
    | .error u, .error v =>
      if h : u = v then .isTrue (by rw [h]) else .isFalse (by simp [h])
    | .ok u, .ok v =>
      if h : u = v then .isTrue (by rw [h]) else .isFalse (by simp [h])
    | .error _, .ok _ => .isFalse (by simp)
    | .ok _, .error _ => .isFalse (by simp)

/-- Size of the `u32` id space the allocator wraps over. -/
def idSpace : Nat := 2 ^ 32

/-- Id allocator state, from `id_factory.rs`. The `HashSet<u32>` becomes a
duplicate-free list consulted through `List.contains`. -/
structure IdFactory where
  cursor : Nat
  set : List Nat
deriving DecidableEq

/-- `IdFactory::new`. -/
def IdFactory.new : IdFactory :=
  ⟨0, []⟩

/-- The scanning loop inside `IdFactory::get_next`: advance (wrapping) while
the current cursor is occupied; fail when the scan is back at its starting
point. The fuel argument only bounds the recursion; `idSpace` fuel is enough
for the loop to reach one of its own exits. -/
def IdFactory.scan (set : List Nat) (start : Nat) : Nat → Nat → Option Nat
  | 0, _ => none
  | fuel + 1, cursor =>
    if set.contains cursor then
      if (cursor + 1) % idSpace = start then none
      else IdFactory.scan set start fuel ((cursor + 1) % idSpace)
    else
      some cursor

/-- `IdFactory::get_next`: scan forward from the cursor for a free id, insert
it, and return it. The cursor field ends up equal to the returned id. -/
def IdFactory.get_next (f : IdFactory) : Option (Nat × IdFactory) :=
  match IdFactory.scan f.set f.cursor idSpace f.cursor with
  | none => none
  | some c => some (c, ⟨c, c :: f.set⟩)

/-- `IdFactory::remove`: free an id, reporting whether it was occupied. -/
def IdFactory.remove (f : IdFactory) (id : Nat) : Bool × IdFactory :=
  (f.set.contains id, ⟨f.cursor, f.set.erase id⟩)

/-- `IdFactory::take_up`: reserve an explicit id, failing on duplicates. -/
def IdFactory.take_up (f : IdFactory) (id : Nat) : Option IdFactory :=
  if f.set.contains id then none else some ⟨f.cursor, id :: f.set⟩

/-- The factory state, from `factory.rs` (`meta` omitted). The three ordered
maps become association lists. -/
structure PaperdollFactory where
  doll_id_factory : IdFactory
  slot_id_factory : IdFactory
  fragment_id_factory : IdFactory
  dolls : List (Nat × Doll)
  slots : List (Nat × Slot)
  fragments : List (Nat × Fragment)
deriving DecidableEq

/-- `PaperdollFactory::get_doll`. -/
def PaperdollFactory.get_doll (f : PaperdollFactory) (id : Nat) : Option Doll :=
  f.dolls.lookup id

/-- `PaperdollFactory::get_slot`. -/
def PaperdollFactory.get_slot (f : PaperdollFactory) (id : Nat) : Option Slot :=
  f.slots.lookup id

/-- `PaperdollFactory::get_fragment`. -/
def PaperdollFactory.get_fragment (f : PaperdollFactory) (id : Nat) : Option Fragment :=
  f.fragments.lookup id

/-- `PaperdollFactory::remove_slot`: drop the map entry, release the id, and
delete the first occurrence of the id from the slot list of every doll (the source
uses `Vec::position` + `Vec::remove`, hence first occurrence only). -/
def PaperdollFactory.remove_slot (f : PaperdollFactory) (id : Nat) :
    Option Slot × PaperdollFactory :=
  match f.slots.lookup id with
  | none => (none, f)
  | some slot =>
    (some slot,
      { f with
        slots := f.slots.filter fun entry => entry.1 != id
        slot_id_factory := (f.slot_id_factory.remove id).2
        dolls := f.dolls.map fun entry =>
          (entry.1, { entry.2 with slots := entry.2.slots.erase id }) })

/-- `PaperdollFactory::remove_fragment`: drop the map entry, release the id,
and delete the first occurrence of the id from every slot's candidate list. -/
def PaperdollFactory.remove_fragment (f : PaperdollFactory) (id : Nat) :
    Option Fragment × PaperdollFactory :=
  match f.fragments.lookup id with
  | none => (none, f)
  | some fragment =>
    (some fragment,
      { f with
        fragments := f.fragments.filter fun entry => entry.1 != id
        fragment_id_factory := (f.fragment_id_factory.remove id).2
        slots := f.slots.map fun entry =>
          (entry.1, { entry.2 with candidates := entry.2.candidates.erase id }) })

/-- `PaperdollFactory::remove_doll`: drop the map entry, release the id, then
cascade `remove_slot` over every slot id the removed doll listed. -/
def PaperdollFactory.remove_doll (f : PaperdollFactory) (id : Nat) :
    Option Doll × PaperdollFactory :=
  match f.dolls.lookup id with
  | none => (none, f)
  | some doll =>
    let f1 :=
      { f with
        dolls := f.dolls.filter fun entry => entry.1 != id
        doll_id_factory := (f.doll_id_factory.remove id).2 }
    (some doll, doll.slots.foldl (fun acc slot_id => (acc.remove_slot slot_id).2) f1)

/-- Error cases of `PaperdollFactory::analyse` (the source formats them as
`anyhow` messages; the embedding keeps them structured). -/
inductive AnalyseError where
  | dollNotFound (id : Nat)
  | slotNotFound (id : Nat)
  | fragmentNotFound (id : Nat)
  | emptyImage (id : Nat)
deriving DecidableEq

/-- The fragment chosen for one slot in `analyse`:
`slot_map.get(slot_id).or_else(slot.required.then(slot.candidates.first).flatten())`. -/
def chosenFragmentId (slot_map : List (Nat × Nat)) (slot : Slot) (slot_id : Nat) :
    Option Nat :=
  match slot_map.lookup slot_id with
  | some fid => some fid
  | none => if slot.required then slot.candidates.head? else none

/-- The per-position piece construction in the body of the slot loop of `analyse`:
constrained slots override the image dimensions with the slot box and keep the
declared position; non-constrained slots keep the fragment's dimensions and
translate by `position + slot.anchor - fragment.pivot`. Pixels are cloned only
when `only_id` is false. -/
def fragmentPieces (slot : Slot) (fragment : Fragment) (fid : Nat) (only_id : Bool) :
    List RenderPiece :=
  slot.positions.map fun position =>
    let image0 : ImageData :=
      { width := fragment.image.width, height := fragment.image.height, pixels := [] }
    let placed :=
      if slot.constrainted then
        ({ image0 with width := slot.width, height := slot.height }, position)
      else
        (image0, position + slot.anchor - fragment.pivot)
    { id := fid
      position := placed.2
      image :=
        if only_id then placed.1 else { placed.1 with pixels := fragment.image.pixels } }

/-- Processing of one slot id inside the loop of `analyse`: resolve the slot,
determine the fragment, resolve it, reject empty images, and emit one piece
per declared position. An unselected optional slot (or a required slot whose
selection and candidate list are both empty) contributes no piece. -/
def slotPieces (f : PaperdollFactory) (slot_map : List (Nat × Nat)) (only_id : Bool)
    (slot_id : Nat) : Except AnalyseError (List RenderPiece) :=
  match f.slots.lookup slot_id with
  | none => .error (.slotNotFound slot_id)
  | some slot =>
    match chosenFragmentId slot_map slot slot_id with
    | none => .ok []
    | some fid =>
      match f.fragments.lookup fid with
      | none => .error (.fragmentNotFound fid)
      | some fragment =>
        if fragment.image.is_empty then .error (.emptyImage fid)
        else .ok (fragmentPieces slot fragment fid only_id)

/-- The slot loop of `analyse`: process the slot ids of the doll in order,
accumulating pieces, propagating the first error. -/
def analyseSlots (f : PaperdollFactory) (slot_map : List (Nat × Nat)) (only_id : Bool) :
    List Nat → Except AnalyseError (List RenderPiece)
  | [] => .ok []
  | slot_id :: rest =>
    match slotPieces f slot_map only_id slot_id with
    | .error e => .error e
    | .ok pieces =>
      match analyseSlots f slot_map only_id rest with
      | .error e => .error e
      | .ok restPieces => .ok (pieces ++ restPieces)

/-- `PaperdollFactory::analyse`. -/
def PaperdollFactory.analyse (f : PaperdollFactory) (doll : Nat)
    (slot_map : List (Nat × Nat)) (only_id : Bool) : Except AnalyseError RenderMaterial :=
  match f.get_doll doll with
  | none => .error (.dollNotFound doll)
  | some d =>
    match analyseSlots f slot_map only_id d.slots with
    | .error e => .error e
    | .ok slots =>
      let dollPiece : Option RenderPiece :=
        if d.image.is_empty then none
        else
          some
            { id := d.id
              position := d.offset
              image :=
                if only_id then
                  { width := d.image.width, height := d.image.height, pixels := [] }
                else d.image }
      .ok { width := d.width, height := d.height, doll := dollPiece, slots := slots }

/-- Truncation toward zero of a nonnegative quantity, as the Rust `as u8` cast does
on the (always nonnegative, in-range) intermediate values of the blend. The
source computes in `f32`; the embedding uses exact rationals. -/
def ratTruncNat (q : ℚ) : Nat :=
  (max q 0).floor.toNat

/-- The Rust `f32 as isize` cast on a finite value: truncation toward zero
(saturation at the isize bounds is irrelevant at the magnitudes ever used). -/
def ratTruncInt (q : ℚ) : Int :=
  if 0 ≤ q then q.floor else -((-q).floor)

/-- The innermost `blend` helper of `copy_pixels`: source-over for one colour
channel, in normalized 0-1 space, converted back by truncation (`as u8`
saturates below 0 and above 255). -/
def blend (dc sc da sa alpha : Nat) : Nat :=
  let daq : ℚ := (da : ℚ) / 255
  let saq : ℚ := (sa : ℚ) / 255
  let aq : ℚ := (alpha : ℚ) / 255
  min 255 (ratTruncNat (((sc : ℚ) * saq + (dc : ℚ) * daq * (1 - saq)) / aq))

/-- `blend_alpha_over`: walk two equal-length row slices four bytes at a time,
blending source-over into the destination. The source asserts the two slices
have equal length, which holds at every call site; a leftover that is not a
full RGBA quadruple is returned unchanged (it never occurs: the slices are
always a multiple of four bytes long). -/
def blend_alpha_over : List Nat → List Nat → List Nat
  | d0 :: d1 :: d2 :: d3 :: dr, s0 :: s1 :: s2 :: s3 :: sr =>
    let alpha := s3 + ratTruncNat ((d3 : ℚ) * (1 - (s3 : ℚ) / 255))
    if alpha = 0 then
      d0 :: d1 :: d2 :: 0 :: blend_alpha_over dr sr
    else
      blend d0 s0 d3 s3 alpha :: blend d1 s1 d3 s3 alpha ::
        blend d2 s2 d3 s3 alpha :: alpha :: blend_alpha_over dr sr
  | d, _ => d

/-- Overwrite the bytes of `l` at `[pos, pos + chunk.length)` with `chunk`:
the effect of blending into the mutable slice `dst.pixels[pos..pos+len]`. -/
def writeChunk (l : List Nat) (pos : Nat) (chunk : List Nat) : List Nat :=
  l.take pos ++ chunk ++ l.drop (pos + chunk.length)

/-- The row-copy loop of `copy_pixels`: while both cursors are inside their
buffers, blend a `w`-byte row slice and advance each cursor by its row
stride. Taking a slice whose end lies past its buffer is a Rust panic,
modelled as `none`; `none` on exhausted fuel models a loop that cannot
terminate (both strides zero), which no claim exercises. -/
def copyLoop (dstRow srcRow w : Nat) (srcPx : List Nat) : Nat → List Nat → Nat → Nat →
    Option (List Nat)
  | 0, dstPx, dc, sc =>
    if dc < dstPx.length ∧ sc < srcPx.length then none else some dstPx
  | fuel + 1, dstPx, dc, sc =>
    if dc < dstPx.length ∧ sc < srcPx.length then
      if dc + w ≤ dstPx.length ∧ sc + w ≤ srcPx.length then
        copyLoop dstRow srcRow w srcPx fuel
          (writeChunk dstPx dc (blend_alpha_over ((dstPx.drop dc).take w) ((srcPx.drop sc).take w)))
          (dc + dstRow) (sc + srcRow)
      else none
    else some dstPx

/-- The source-row start offset `sx` of `copy_pixels`:
`if dx >= 0 then 0 else dx.abs_diff(0)`. -/
def clipSx (dx : Int) : Nat :=
  if 0 ≤ dx then 0 else (-dx).toNat

/-- `copy_pixels`: clip the source rectangle against the destination and blend
it row by row. Empty source images and rectangles strictly past an edge are
skipped with no effect. -/
def copy_pixels (dst src : ImageData) (dx dy : Int) : Option ImageData :=
  if src.is_empty then some dst
  else if (dst.width : Int) ≤ dx ∨ dx + (src.width : Int) < 0 ∨
      (dst.height : Int) ≤ dy ∨ dy + (src.height : Int) < 0 then some dst
  else
    let dst_row_len := dst.width * 4
    let src_row_len := src.width * 4
    let sx : Nat := clipSx dx
    let sy : Nat := clipSx dy
    let dxn : Nat := dx.toNat
    let dyn : Nat := dy.toNat
    let copy_width := (min (src.width - sx) (dst.width - dxn)) * 4
    let dst_cursor := dyn * dst_row_len + dxn * 4
    let src_cursor := sy * src_row_len + sx * 4
    match copyLoop dst_row_len src_row_len copy_width src.pixels
        (dst.pixels.length + 1) dst.pixels dst_cursor src_cursor with
    | none => none
    | some px => some { dst with pixels := px }

/-- The all-transparent canvas `render` allocates for a material:
`vec![0; width * height * 4]`. -/
def blankCanvas (material : RenderMaterial) : ImageData :=
  { width := material.width
    height := material.height
    pixels := List.replicate (material.width * material.height * 4) 0 }

/-- One painting step of `render`, applied to an accumulator that is `none`
once any earlier copy has panicked. -/
def paintStep (acc : Option ImageData) (piece : RenderPiece) : Option ImageData :=
  acc.bind fun img =>
    copy_pixels img piece.image (ratTruncInt piece.position.x) (ratTruncInt piece.position.y)

/-- `PaperdollFactory::render`: analyse with pixels, allocate the canvas,
paint the doll background piece if present, then paint the slot pieces in
material order. `.ok none` models a run whose pixel copy panicked. -/
def PaperdollFactory.render (f : PaperdollFactory) (doll : Nat)
    (slot_map : List (Nat × Nat)) : Except AnalyseError (Option ImageData) :=
  match f.analyse doll slot_map false with
  | .error e => .error e
  | .ok material =>
    let image0 := blankCanvas material
    let image1 : Option ImageData :=
      match material.doll with
      | some dollPiece =>
        copy_pixels image0 dollPiece.image
          (ratTruncInt dollPiece.position.x) (ratTruncInt dollPiece.position.y)
      | none => some image0
    .ok (material.slots.foldl paintStep image1)

/-- The pieces one slot id contributes on a successful `analyse` (empty when
that slot id would error, a case the order theorems never reach). -/
def piecesOfSlot (f : PaperdollFactory) (slot_map : List (Nat × Nat)) (only_id : Bool)
    (slot_id : Nat) : List RenderPiece :=
  match slotPieces f slot_map only_id slot_id with
  | .ok pieces => pieces
  | .error _ => []

/-- Stated from the ordering words of the spec: the slot pieces of a material are
the concatenation, in doll slot-list order, of each slot's pieces (which are
themselves in declared position order). Compared against `analyse`. -/
def materialSlotsInOrder (f : PaperdollFactory) (slot_map : List (Nat × Nat))
    (only_id : Bool) : List Nat → List RenderPiece
  | [] => []
  | slot_id :: rest =>
    piecesOfSlot f slot_map only_id slot_id ++ materialSlotsInOrder f slot_map only_id rest

/-- Stated from the painting words of the spec: paint a list of pieces strictly in
list order onto a canvas. Compared against `render`. -/
def paintInOrder (canvas : ImageData) (pieces : List RenderPiece) : Option ImageData :=
  pieces.foldl paintStep (some canvas)

/-- The doll background piece of a material as a zero- or one-element prefix
of the paint order. -/
def dollPieceList (material : RenderMaterial) : List RenderPiece :=
  match material.doll with
  | some piece => [piece]
  | none => []

/-- The error condition of `analyse` for a single slot id, as the claim lists
it: the slot id is absent from the store, or a fragment was chosen for it and
that fragment is absent or carries an empty image. -/
def slotBad (f : PaperdollFactory) (slot_map : List (Nat × Nat)) (slot_id : Nat) : Prop :=
  f.slots.lookup slot_id = none ∨
    ∃ slot, f.slots.lookup slot_id = some slot ∧
      ∃ fid, chosenFragmentId slot_map slot slot_id = some fid ∧
        (f.fragments.lookup fid = none ∨
          ∃ fragment, f.fragments.lookup fid = some fragment ∧ fragment.image.pixels = [])

/-- The full error condition of `analyse`: the doll is absent, or some slot id
in its slot list is bad in the sense of `slotBad`. -/
def analyseBad (f : PaperdollFactory) (doll : Nat) (slot_map : List (Nat × Nat)) : Prop :=
  f.get_doll doll = none ∨
    ∃ d, f.get_doll doll = some d ∧ ∃ slot_id ∈ d.slots, slotBad f slot_map slot_id

/-- An empty-store factory skeleton shared by the concrete samples below. -/
def emptyFactory : PaperdollFactory :=
  { doll_id_factory := IdFactory.new
    slot_id_factory := IdFactory.new
    fragment_id_factory := IdFactory.new
    dolls := []
    slots := []
    fragments := [] }

/-- Sample fragment: 3 x 2 image, pivot (2, 2). -/
def fragGeo : Fragment :=
  { id := 7, pivot := ⟨2, 2⟩
    image := { width := 3, height := 2, pixels := List.replicate 24 5 } }

/-- Sample non-constrained slot at position (10, 10) with anchor (5, 5). -/
def slotAnchor : Slot :=
  { id := 1, required := true, constrainted := false, positions := [⟨10, 10⟩]
    width := 0, height := 0, anchor := ⟨5, 5⟩, candidates := [7] }

/-- Sample constrained slot with a 4 x 5 box at position (1, 1). -/
def slotBox : Slot :=
  { id := 2, required := false, constrainted := true, positions := [⟨1, 1⟩]
    width := 4, height := 5, anchor := ⟨0, 0⟩, candidates := [7] }

/-- Sample optional slot with no candidates. -/
def slotOpt : Slot :=
  { id := 3, required := false, constrainted := false, positions := [⟨0, 0⟩]
    width := 0, height := 0, anchor := ⟨0, 0⟩, candidates := [9] }

/-- Sample store holding the geometry slots and fragment. -/
def fGeo : PaperdollFactory :=
  { emptyFactory with
    slots := [(1, slotAnchor), (2, slotBox), (3, slotOpt)]
    fragments := [(7, fragGeo)] }

/-- Sample slot with id 5 used by the removal samples. -/
def slotFive : Slot :=
  { id := 5, required := false, constrainted := false, positions := [⟨0, 0⟩]
    width := 0, height := 0, anchor := ⟨0, 0⟩, candidates := [3] }

/-- Sample slot with id 6 whose candidate list mentions fragment 3 once. -/
def slotSix : Slot :=
  { id := 6, required := false, constrainted := false, positions := [⟨0, 0⟩]
    width := 0, height := 0, anchor := ⟨0, 0⟩, candidates := [3, 4] }

/-- Sample doll listing slots 5 and 6. -/
def dollC5 : Doll :=
  { id := 0, width := 0, height := 0, offset := ⟨0, 0⟩, slots := [5, 6]
    image := { width := 0, height := 0, pixels := [] } }

/-- After removing slot 5, the sample doll lists slot 6 only. -/
def dollC5After : Doll :=
  { dollC5 with slots := [6] }

/-- Sample store for the removal claim. -/
def fC5 : PaperdollFactory :=
  { emptyFactory with
    dolls := [(0, dollC5)]
    slots := [(5, slotFive), (6, slotSix)] }

/-- Sample doll whose slot list mentions slot 5 twice. -/
def dollDup : Doll :=
  { dollC5 with slots := [5, 5] }

/-- Sample store where a doll references slot 5 twice. -/
def fDup : PaperdollFactory :=
  { emptyFactory with
    dolls := [(0, dollDup)]
    slots := [(5, slotFive)] }

/-- Sample doll for the out-of-bounds run: a 2 x 1 canvas with one
constrained slot. -/
def dollC3 : Doll :=
  { id := 0, width := 2, height := 1, offset := ⟨0, 0⟩, slots := [8]
    image := { width := 0, height := 0, pixels := [] } }

/-- Sample constrained slot whose 2 x 1 box is wider than its fragment. -/
def slotC3 : Slot :=
  { id := 8, required := false, constrainted := true, positions := [⟨0, 0⟩]
    width := 2, height := 1, anchor := ⟨0, 0⟩, candidates := [9] }

/-- Sample 1 x 1 fragment (four bytes of pixel payload). -/
def fragC3 : Fragment :=
  { id := 9, pivot := ⟨0, 0⟩
    image := { width := 1, height := 1, pixels := [9, 9, 9, 255] } }

/-- Sample store on which analyse succeeds but the pixel copy of render reads
out of bounds. -/
def fC3 : PaperdollFactory :=
  { emptyFactory with
    dolls := [(0, dollC3)]
    slots := [(8, slotC3)]
    fragments := [(9, fragC3)] }

/-- The material analyse produces on the out-of-bounds sample. -/
def matC3 : RenderMaterial :=
  { width := 2, height := 1, doll := none
    slots := [{ id := 9, position := ⟨0, 0⟩
                image := { width := 2, height := 1, pixels := [9, 9, 9, 255] } }] }

/-- Sample doll with an empty slot list for the paint-order witness. -/
def dollC9 : Doll :=
  { id := 0, width := 1, height := 1, offset := ⟨0, 0⟩, slots := []
    image := { width := 0, height := 0, pixels := [] } }

/-- Sample store for the paint-order witness. -/
def fC9 : PaperdollFactory :=
  { emptyFactory with dolls := [(0, dollC9)] }

/-- The material analyse produces on the paint-order sample. -/
def matC9 : RenderMaterial :=
  { width := 1, height := 1, doll := none, slots := [] }

/-- A fully transparent 100 x 100 canvas. -/
def canvas100 : ImageData :=
  { width := 100, height := 100, pixels := List.replicate 40000 0 }

/-- A 10 x 10 source image. -/
def img10 : ImageData :=
  { width := 10, height := 10, pixels := List.replicate 400 7 }

theorem ImageData.is_empty_iff (img : ImageData) : img.is_empty = true ↔ img.pixels = [] := by
  cases h : img.pixels <;> simp [ImageData.is_empty, h]

theorem IdFactory.scan_not_mem (set : List Nat) (start : Nat) :
    ∀ (fuel cursor c : Nat), IdFactory.scan set start fuel cursor = some c →
      set.contains c = false := by
  intro fuel
  induction fuel with
  | zero =>
    intro cursor c h
    simp [IdFactory.scan] at h
  | succ n ih =>
    intro cursor c h
    unfold IdFactory.scan at h
    split at h
    · split at h
      · exact absurd h (by simp)
      · exact ih _ _ h
    · rename_i hc
      obtain rfl : cursor = c := by simpa using h
      simpa using hc

/-- Claim C2 is false on the code: a successful allocation leaves the cursor
at the id it returned (it never advances past it), so releasing the id just
returned makes the very next allocation return the same id again, with the
cursor never having moved, let alone wrapped. Concrete run: a fresh allocator
returns 0; after releasing 0, the next allocation returns 0 again while the
cursor is still 0. -/
theorem IdFactory.reuse_counterexample :
    IdFactory.new.get_next = some (0, ⟨0, [0]⟩) ∧
      (⟨0, [0]⟩ : IdFactory).cursor = 0 ∧
      ((⟨0, [0]⟩ : IdFactory).remove 0).2.get_next = some (0, ⟨0, [0]⟩) := by
  decide

/-- Claim C2 amended: a successful allocation leaves the cursor equal to the
id it returns (not past it); consequently, releasing that id makes the very
next allocation return the same id immediately, restoring the same allocator
state, with no wrap of the cursor involved. -/
theorem IdFactory.get_next_cursor_stays (f : IdFactory) (i : Nat) (f' : IdFactory)
    (h : f.get_next = some (i, f')) :
    f'.cursor = i ∧ ((f'.remove i).2).get_next = some (i, f') := by
  unfold IdFactory.get_next at h
  cases hs : IdFactory.scan f.set f.cursor idSpace f.cursor with
  | none => rw [hs] at h; exact absurd h (by simp)
  | some c =>
    rw [hs] at h
    have hci : c = i ∧ (⟨c, c :: f.set⟩ : IdFactory) = f' := by
      simpa [Prod.ext_iff] using h
    obtain ⟨rfl, rfl⟩ := hci
    have hmem : f.set.contains c = false := IdFactory.scan_not_mem _ _ _ _ _ hs
    refine ⟨rfl, ?_⟩
    have herase : ((⟨c, c :: f.set⟩ : IdFactory).remove c).2 = ⟨c, f.set⟩ := by
      simp [IdFactory.remove, List.erase_cons_head]
    rw [herase]
    unfold IdFactory.get_next
    have hfuel : idSpace = 4294967295 + 1 := by norm_num [idSpace]
    rw [hfuel]
    unfold IdFactory.scan
    have hm : c ∉ f.set := by simpa using hmem
    simp [hm]

/-- Witness for the amended claim C2 at a concrete input. -/
theorem IdFactory.get_next_cursor_stays_witness :
    (⟨0, [0]⟩ : IdFactory).cursor = 0 ∧
      ((⟨0, [0]⟩ : IdFactory).remove 0).2.get_next = some (0, ⟨0, [0]⟩) :=
  IdFactory.get_next_cursor_stays IdFactory.new 0 ⟨0, [0]⟩ (by decide)

theorem analyseSlots_nil (f : PaperdollFactory) (m : List (Nat × Nat)) (b : Bool) :
    analyseSlots f m b [] = .ok [] := rfl

theorem analyseSlots_cons (f : PaperdollFactory) (m : List (Nat × Nat)) (b : Bool)
    (sid : Nat) (rest : List Nat) :
    analyseSlots f m b (sid :: rest) =
      match slotPieces f m b sid with
      | .error e => .error e
      | .ok pieces =>
        match analyseSlots f m b rest with
        | .error e => .error e
        | .ok restPieces => .ok (pieces ++ restPieces) := rfl

theorem analyseSlots_cons_skip (f : PaperdollFactory) (m : List (Nat × Nat)) (b : Bool)
    (sid : Nat) (rest : List Nat) (hsp : slotPieces f m b sid = .ok []) :
    analyseSlots f m b (sid :: rest) = analyseSlots f m b rest := by
  cases h : analyseSlots f m b rest with
  | error e => rw [analyseSlots_cons, hsp, h]
  | ok r => rw [analyseSlots_cons, hsp, h]; simp

/-- Claim C1: for a slot in the doll slot list with no entry in the
selection, analyse resolves a required slot to the first declared candidate
(`candidates.head?`); when a required slot has no candidates it contributes
no piece and raises no error, and a non-required unselected slot likewise
contributes no piece — in both cases the loop simply moves on to the
remaining slots. -/
theorem analyse_unselected_slot_policy (f : PaperdollFactory) (m : List (Nat × Nat))
    (b : Bool) (sid : Nat) (rest : List Nat) (slot : Slot)
    (hs : f.slots.lookup sid = some slot)
    (hm : m.lookup sid = none) :
    (slot.required = true → chosenFragmentId m slot sid = slot.candidates.head?) ∧
    (slot.required = true → slot.candidates = [] →
      analyseSlots f m b (sid :: rest) = analyseSlots f m b rest) ∧
    (slot.required = false →
      analyseSlots f m b (sid :: rest) = analyseSlots f m b rest) := by
  have hch : chosenFragmentId m slot sid =
      if slot.required then slot.candidates.head? else none := by
    unfold chosenFragmentId
    rw [hm]
  refine ⟨fun hr => by rw [hch, hr, if_pos rfl], ?_, ?_⟩
  · intro hr hcand
    have hnone : chosenFragmentId m slot sid = none := by
      rw [hch, hr, if_pos rfl, hcand]
      rfl
    exact analyseSlots_cons_skip f m b sid rest (by simp only [slotPieces, hs, hnone])
  · intro hr
    have hnone : chosenFragmentId m slot sid = none := by
      rw [hch, hr]
      rfl
    exact analyseSlots_cons_skip f m b sid rest (by simp only [slotPieces, hs, hnone])

/-- Witness for claim C1: in the sample store, the unselected required slot 1
resolves to its first candidate 7, and the unselected optional slot 3
contributes nothing and raises no error. -/
theorem analyse_unselected_slot_policy_witness :
    chosenFragmentId [] slotAnchor 1 = some 7 ∧
      analyseSlots fGeo [] false [3] = .ok [] := by
  constructor
  · rw [(analyse_unselected_slot_policy fGeo [] false 1 [] slotAnchor rfl rfl).1 rfl]
    rfl
  · rw [(analyse_unselected_slot_policy fGeo [] false 3 [] slotOpt rfl rfl).2.2 rfl]
    rfl

theorem lookup_cons_eq {α : Type} (s : Nat) (q : Nat × α) (t : List (Nat × α)) :
    List.lookup s (q :: t) = if s == q.1 then some q.2 else List.lookup s t := by
  rcases q with ⟨k, v⟩
  rw [List.lookup]
  cases h : s == k <;> simp [h]

theorem lookup_filter_ne_self {α : Type} (l : List (Nat × α)) (id : Nat) :
    (l.filter fun entry => entry.1 != id).lookup id = none := by
  induction l with
  | nil => rfl
  | cons p t ih =>
    by_cases hp : p.1 = id
    · have hf : (p.1 != id) = false := by simp [hp]
      simp [List.filter_cons, hf, ih]
    · have hf : (p.1 != id) = true := by simp [hp]
      have hl : (id == p.1) = false := by simp; omega
      simp [List.filter_cons, hf, lookup_cons_eq, hl, ih]

theorem lookup_none_filter {α : Type} (l : List (Nat × α)) (p : Nat × α → Bool) (s : Nat)
    (h : l.lookup s = none) : (l.filter p).lookup s = none := by
  induction l with
  | nil => rfl
  | cons q t ih =>
    rw [lookup_cons_eq] at h
    by_cases hq : (s == q.1) = true
    · rw [if_pos hq] at h
      exact absurd h (by simp)
    · rw [if_neg hq] at h
      by_cases hpq : p q = true
      · rw [List.filter_cons, if_pos hpq, lookup_cons_eq, if_neg hq]
        exact ih h
      · rw [List.filter_cons, if_neg hpq]
        exact ih h

theorem remove_slot_lookup_self (f : PaperdollFactory) (id : Nat) :
    ((f.remove_slot id).2).slots.lookup id = none := by
  unfold PaperdollFactory.remove_slot
  cases h : f.slots.lookup id with
  | none => exact h
  | some slot => exact lookup_filter_ne_self f.slots id

theorem remove_slot_lookup_none (f : PaperdollFactory) (id s : Nat)
    (h : f.slots.lookup s = none) : ((f.remove_slot id).2).slots.lookup s = none := by
  unfold PaperdollFactory.remove_slot
  cases hl : f.slots.lookup id with
  | none => exact h
  | some slot => exact lookup_none_filter f.slots _ s h

theorem remove_slot_fold_lookup_none (L : List Nat) :
    ∀ (f : PaperdollFactory) (s : Nat), f.slots.lookup s = none →
      ((L.foldl (fun acc slot_id => (acc.remove_slot slot_id).2) f).slots.lookup s) = none := by
  induction L with
  | nil => intro f s h; exact h
  | cons sid t ih =>
    intro f s h
    exact ih _ s (remove_slot_lookup_none f sid s h)

theorem remove_slot_fold_lookup_mem (L : List Nat) :
    ∀ (f : PaperdollFactory) (s : Nat), s ∈ L →
      ((L.foldl (fun acc slot_id => (acc.remove_slot slot_id).2) f).slots.lookup s) = none := by
  induction L with
  | nil => intro f s h; exact absurd h (List.not_mem_nil s)
  | cons sid t ih =>
    intro f s h
    rw [List.foldl_cons]
    rcases List.mem_cons.mp h with rfl | hmem
    · exact remove_slot_fold_lookup_none t _ s (remove_slot_lookup_self f s)
    · exact ih _ s hmem

theorem not_mem_erase_of_count_le_one {l : List Nat} {a : Nat} (h : l.count a ≤ 1) :
    a ∉ l.erase a := by
  have hc : (l.erase a).count a = l.count a - 1 := List.count_erase_self a l
  have : (l.erase a).count a = 0 := by omega
  exact (List.count_eq_zero).mp this

/-- Claim C5 amended: after a successful `remove_doll id`, every slot id the
removed doll listed is absent from the slot store. After a successful
`remove_slot id`, the id occurs in no doll slot list, provided no doll listed
it more than once (the scrub deletes only the first occurrence). After a
successful `remove_fragment id`, the id occurs in no slot candidate list
under the same at-most-once proviso, while the doll store is untouched and
the slot store keeps exactly its keys. -/
theorem remove_cascades (f : PaperdollFactory) (id : Nat) :
    (∀ (d : Doll) (f' : PaperdollFactory), f.remove_doll id = (some d, f') →
       ∀ sid ∈ d.slots, f'.slots.lookup sid = none) ∧
    (∀ (s : Slot) (f' : PaperdollFactory), f.remove_slot id = (some s, f') →
       (∀ entry ∈ f.dolls, entry.2.slots.count id ≤ 1) →
       ∀ entry ∈ f'.dolls, id ∉ entry.2.slots) ∧
    (∀ (fr : Fragment) (f' : PaperdollFactory), f.remove_fragment id = (some fr, f') →
       ((∀ entry ∈ f.slots, entry.2.candidates.count id ≤ 1) →
          ∀ entry ∈ f'.slots, id ∉ entry.2.candidates) ∧
       f'.dolls = f.dolls ∧ f'.slots.map Prod.fst = f.slots.map Prod.fst) := by
  refine ⟨?_, ?_, ?_⟩
  · intro d f' h sid hmem
    unfold PaperdollFactory.remove_doll at h
    cases hl : f.dolls.lookup id with
    | none => rw [hl] at h; exact absurd h (by simp)
    | some doll =>
      rw [hl] at h
      simp only [Prod.mk.injEq, Option.some.injEq] at h
      obtain ⟨rfl, rfl⟩ := h
      exact remove_slot_fold_lookup_mem _ _ sid hmem
  · intro s f' h hcount entry hentry
    unfold PaperdollFactory.remove_slot at h
    cases hl : f.slots.lookup id with
    | none => rw [hl] at h; exact absurd h (by simp)
    | some slot =>
      rw [hl] at h
      simp only [Prod.mk.injEq, Option.some.injEq] at h
      obtain ⟨rfl, rfl⟩ := h
      simp only [List.mem_map] at hentry
      obtain ⟨orig, horig, rfl⟩ := hentry
      exact not_mem_erase_of_count_le_one (hcount orig horig)
  · intro fr f' h
    unfold PaperdollFactory.remove_fragment at h
    cases hl : f.fragments.lookup id with
    | none => rw [hl] at h; exact absurd h (by simp)
    | some fragment =>
      rw [hl] at h
      simp only [Prod.mk.injEq, Option.some.injEq] at h
      obtain ⟨rfl, rfl⟩ := h
      refine ⟨?_, rfl, ?_⟩
      · intro hcount entry hentry
        simp only [List.mem_map] at hentry
        obtain ⟨orig, horig, rfl⟩ := hentry
        exact not_mem_erase_of_count_le_one (hcount orig horig)
      · rw [List.map_map]
        rfl

/-- Witness for the amended claim C5: removing slot 5 from the sample store
leaves a doll that no longer lists slot 5. -/
theorem remove_cascades_witness : (5 : Nat) ∉ dollC5After.slots :=
  (remove_cascades fC5 5).2.1 slotFive (fC5.remove_slot 5).2 (by decide) (by decide)
    (0, dollC5After) (by decide)

/-- Claim C5 as stated is false on the code: in a store where a doll lists
slot 5 twice, `remove_slot 5` succeeds yet the id 5 still occurs in that doll
slot list, because the scrub removes only the first occurrence. -/
theorem remove_slot_duplicate_counterexample :
    (fDup.remove_slot 5).1 = some slotFive ∧
      ((fDup.remove_slot 5).2.dolls.any fun entry => entry.2.slots.contains 5) = true := by
  decide

theorem slotPieces_error_iff (f : PaperdollFactory) (m : List (Nat × Nat)) (b : Bool)
    (sid : Nat) :
    (∃ e, slotPieces f m b sid = .error e) ↔ slotBad f m sid := by
  unfold slotBad
  cases hs : f.slots.lookup sid with
  | none => simp [slotPieces, hs]
  | some slot =>
    cases hc : chosenFragmentId m slot sid with
    | none => simp [slotPieces, hs, hc]
    | some fid =>
      cases hf : f.fragments.lookup fid with
      | none =>
        constructor
        · intro _
          exact Or.inr ⟨slot, rfl, fid, hc, Or.inl hf⟩
        · intro _
          exact ⟨.fragmentNotFound fid, by simp [slotPieces, hs, hc, hf]⟩
      | some fragment =>
        by_cases he : fragment.image.is_empty = true
        · have hpx : fragment.image.pixels = [] := (ImageData.is_empty_iff _).mp he
          constructor
          · intro _
            exact Or.inr ⟨slot, rfl, fid, hc, Or.inr ⟨fragment, hf, hpx⟩⟩
          · intro _
            exact ⟨.emptyImage fid, by simp [slotPieces, hs, hc, hf, he]⟩
        · have hpx : fragment.image.pixels ≠ [] := fun hp =>
            he ((ImageData.is_empty_iff _).mpr hp)
          have hsp : slotPieces f m b sid = .ok (fragmentPieces slot fragment fid b) := by
            simp [slotPieces, hs, hc, hf, he]
          constructor
          · rintro ⟨e, hee⟩
            rw [hsp] at hee
            exact absurd hee (by simp)
          · rintro (h0 | ⟨slot', hs', fid', hc', hbad⟩)
            · exact absurd h0 (by simp)
            · obtain rfl : slot = slot' := by simpa using hs'
              rw [hc] at hc'
              obtain rfl : fid = fid' := by simpa using hc'
              rcases hbad with hb | ⟨fragment', hf', hpx'⟩
              · rw [hf] at hb
                exact absurd hb (by simp)
              · rw [hf] at hf'
                obtain rfl : fragment = fragment' := by simpa using hf'
                exact absurd hpx' hpx

theorem analyseSlots_error_iff (f : PaperdollFactory) (m : List (Nat × Nat)) (b : Bool) :
    ∀ (L : List Nat),
      (∃ e, analyseSlots f m b L = .error e) ↔ ∃ sid ∈ L, slotBad f m sid := by
  intro L
  induction L with
  | nil => simp [analyseSlots_nil]
  | cons sid rest ih =>
    rw [analyseSlots_cons]
    cases hp : slotPieces f m b sid with
    | error e =>
      have hbad : slotBad f m sid := (slotPieces_error_iff f m b sid).mp ⟨e, hp⟩
      simp [hbad]
    | ok pieces =>
      have hgood : ¬ slotBad f m sid := fun hbad => by
        obtain ⟨e, he⟩ := (slotPieces_error_iff f m b sid).mpr hbad
        rw [hp] at he
        exact absurd he (by simp)
      cases hr : analyseSlots f m b rest with
      | error e =>
        have : ∃ sid' ∈ rest, slotBad f m sid' := ih.mp ⟨e, hr⟩
        obtain ⟨sid', hmem, hbad⟩ := this
        simp only [List.mem_cons]
        constructor
        · intro _
          exact ⟨sid', Or.inr hmem, hbad⟩
        · intro _
          exact ⟨e, rfl⟩
      | ok r =>
        have hnone : ¬ ∃ sid' ∈ rest, slotBad f m sid' := fun hx => by
          obtain ⟨e, he⟩ := ih.mpr hx
          rw [hr] at he
          exact absurd he (by simp)
        simp only [List.mem_cons]
        constructor
        · intro hx
          obtain ⟨e, he⟩ := hx
          exact absurd he (by simp)
        · rintro ⟨sid', rfl | hmem, hbad⟩
          · exact absurd hbad hgood
          · exact absurd ⟨sid', hmem, hbad⟩ hnone

/-- Claim C4: `analyse` returns an error exactly when the doll id is absent,
or some slot id in the doll slot list is absent, or the fragment chosen for a
processed slot is absent, or that fragment carries an empty pixel payload
(`slotBad` spells out the last three cases); in every other case it returns a
render material. -/
theorem analyse_error_iff (f : PaperdollFactory) (doll : Nat)
    (m : List (Nat × Nat)) (b : Bool) :
    ((∃ e, f.analyse doll m b = .error e) ↔ analyseBad f doll m) ∧
    ((∃ material, f.analyse doll m b = .ok material) ↔ ¬ analyseBad f doll m) := by
  have herr : (∃ e, f.analyse doll m b = .error e) ↔ analyseBad f doll m := by
    unfold analyseBad
    cases hd : f.get_doll doll with
    | none => simp [PaperdollFactory.analyse, hd]
    | some d =>
      cases ha : analyseSlots f m b d.slots with
      | error e =>
        have : ∃ sid ∈ d.slots, slotBad f m sid :=
          (analyseSlots_error_iff f m b d.slots).mp ⟨e, ha⟩
        simp [PaperdollFactory.analyse, hd, ha, this]
      | ok slots =>
        have hnone : ¬ ∃ sid ∈ d.slots, slotBad f m sid := fun hx => by
          obtain ⟨e, he⟩ := (analyseSlots_error_iff f m b d.slots).mpr hx
          rw [ha] at he
          exact absurd he (by simp)
        simp [PaperdollFactory.analyse, hd, ha, hnone]
  refine ⟨herr, ?_⟩
  cases ha : f.analyse doll m b with
  | error e =>
    constructor
    · rintro ⟨material, hmat⟩
      exact absurd hmat (by simp)
    · intro hn
      exact absurd (herr.mp ⟨e, ha⟩) hn
  | ok material =>
    constructor
    · intro _ hbad
      obtain ⟨e, he⟩ := herr.mpr hbad
      rw [ha] at he
      exact absurd he (by simp)
    · intro _
      exact ⟨material, rfl⟩

/-- Claim C7: for a non-constrained slot whose fragment resolves, `analyse`
produces, for each declared position in order, a piece placed at
`position + slot.anchor - fragment.pivot` whose dimensions are the fragment
native width and height (pixels cloned exactly when requested). -/
theorem analyse_anchor_placement (f : PaperdollFactory) (m : List (Nat × Nat))
    (b : Bool) (sid : Nat) (slot : Slot) (fid : Nat) (fragment : Fragment)
    (hs : f.slots.lookup sid = some slot)
    (hc : chosenFragmentId m slot sid = some fid)
    (hf : f.fragments.lookup fid = some fragment)
    (hne : fragment.image.pixels ≠ [])
    (hcon : slot.constrainted = false) :
    slotPieces f m b sid = .ok (slot.positions.map fun position =>
      { id := fid
        position := position + slot.anchor - fragment.pivot
        image := { width := fragment.image.width, height := fragment.image.height
                   pixels := if b then [] else fragment.image.pixels } }) := by
  have he : fragment.image.is_empty = false := by
    cases hb : fragment.image.is_empty with
    | false => rfl
    | true => exact absurd ((ImageData.is_empty_iff _).mp hb) hne
  have hsp : slotPieces f m b sid = .ok (fragmentPieces slot fragment fid b) := by
    simp [slotPieces, hs, hc, hf, he]
  rw [hsp]
  unfold fragmentPieces
  rw [hcon]
  cases b <;> simp

theorem Point.add_def (a b : Point) : a + b = ⟨a.x + b.x, a.y + b.y⟩ := rfl

theorem Point.sub_def (a b : Point) : a - b = ⟨a.x - b.x, a.y - b.y⟩ := rfl

/-- Witness for claim C7: slot position (10, 10), anchor (5, 5), fragment
pivot (2, 2) places the piece at (13, 13) with the fragment native 3 x 2
size and its raw pixels. -/
theorem analyse_anchor_placement_witness :
    slotPieces fGeo [(1, 7)] false 1 = .ok
      [{ id := 7
         position := ⟨13, 13⟩
         image := { width := 3, height := 2, pixels := List.replicate 24 5 } }] := by
  rw [analyse_anchor_placement fGeo [(1, 7)] false 1 slotAnchor 7 fragGeo rfl rfl rfl
    (by decide) rfl]
  simp only [slotAnchor, fragGeo, List.map, Point.add_def, Point.sub_def]
  norm_num

/-- Claim C8: for a constrained slot whose fragment resolves, `analyse`
produces, for each declared position in order, a piece whose dimensions are
the slot box width and height, whose position is the declared position
unmodified, and whose pixel payload (when requested) is the fragment raw
bytes with no resampling, even when the fragment native size differs from
the slot box. -/
theorem analyse_constrained_placement (f : PaperdollFactory) (m : List (Nat × Nat))
    (b : Bool) (sid : Nat) (slot : Slot) (fid : Nat) (fragment : Fragment)
    (hs : f.slots.lookup sid = some slot)
    (hc : chosenFragmentId m slot sid = some fid)
    (hf : f.fragments.lookup fid = some fragment)
    (hne : fragment.image.pixels ≠ [])
    (hcon : slot.constrainted = true) :
    slotPieces f m b sid = .ok (slot.positions.map fun position =>
      { id := fid
        position := position
        image := { width := slot.width, height := slot.height
                   pixels := if b then [] else fragment.image.pixels } }) := by
  have he : fragment.image.is_empty = false := by
    cases hb : fragment.image.is_empty with
    | false => rfl
    | true => exact absurd ((ImageData.is_empty_iff _).mp hb) hne
  have hsp : slotPieces f m b sid = .ok (fragmentPieces slot fragment fid b) := by
    simp [slotPieces, hs, hc, hf, he]
  rw [hsp]
  unfold fragmentPieces
  rw [hcon]
  cases b <;> simp

/-- Witness for claim C8: the 3 x 2 fragment placed into the constrained
4 x 5 slot yields a piece with the box dimensions, the declared position
(1, 1), and the fragment raw 24 bytes unresampled. -/
theorem analyse_constrained_placement_witness :
    slotPieces fGeo [(2, 7)] false 2 = .ok
      [{ id := 7
         position := ⟨1, 1⟩
         image := { width := 4, height := 5, pixels := List.replicate 24 5 } }] := by
  rw [analyse_constrained_placement fGeo [(2, 7)] false 2 slotBox 7 fragGeo rfl rfl rfl
    (by decide) rfl]
  decide

theorem analyseSlots_ok_eq (f : PaperdollFactory) (m : List (Nat × Nat)) (b : Bool) :
    ∀ (L : List Nat) (ps : List RenderPiece), analyseSlots f m b L = .ok ps →
      ps = materialSlotsInOrder f m b L := by
  intro L
  induction L with
  | nil =>
    intro ps h
    rw [analyseSlots_nil] at h
    obtain rfl : ([] : List RenderPiece) = ps := by simpa using h
    rfl
  | cons sid rest ih =>
    intro ps h
    rw [analyseSlots_cons] at h
    cases hp : slotPieces f m b sid with
    | error e =>
      rw [hp] at h
      exact absurd h (by simp)
    | ok pieces =>
      rw [hp] at h
      cases hr : analyseSlots f m b rest with
      | error e =>
        rw [hr] at h
        exact absurd h (by simp)
      | ok r =>
        rw [hr] at h
        obtain rfl : pieces ++ r = ps := by simpa using h
        unfold materialSlotsInOrder piecesOfSlot
        rw [hp, ih r hr]

theorem dollPieceList_eq (material : RenderMaterial) :
    dollPieceList material =
      match material.doll with
      | some piece => [piece]
      | none => [] := rfl

/-- Claim C9: on a successful `analyse`, the material lists the slot pieces
in doll slot-list order with each slot contribution in declared position
order (`materialSlotsInOrder`), and `render` paints the doll background
piece (when present) first and then every slot piece in exactly the material
order (`paintInOrder` over `dollPieceList ++ slots`), with no reordering. -/
theorem render_paint_order (f : PaperdollFactory) (doll : Nat)
    (m : List (Nat × Nat)) (material : RenderMaterial)
    (h : f.analyse doll m false = .ok material) :
    (∃ d, f.get_doll doll = some d ∧
      material.slots = materialSlotsInOrder f m false d.slots) ∧
    f.render doll m =
      .ok (paintInOrder (blankCanvas material) (dollPieceList material ++ material.slots)) := by
  constructor
  · unfold PaperdollFactory.analyse at h
    cases hd : f.get_doll doll with
    | none =>
      rw [hd] at h
      exact absurd h (by simp)
    | some d =>
      rw [hd] at h
      dsimp only at h
      refine ⟨d, rfl, ?_⟩
      cases ha : analyseSlots f m false d.slots with
      | error e =>
        rw [ha] at h
        exact absurd h (by simp)
      | ok slots =>
        rw [ha] at h
        have h' := h
        simp only [Except.ok.injEq] at h'
        rw [← h']
        exact analyseSlots_ok_eq f m false d.slots slots ha
  · unfold PaperdollFactory.render
    rw [h]
    dsimp only
    unfold paintInOrder
    rw [List.foldl_append]
    cases hdoll : material.doll with
    | none =>
      rw [dollPieceList_eq, hdoll]
      rfl
    | some dollPiece =>
      rw [dollPieceList_eq, hdoll]
      rfl

/-- Witness for claim C9 at a concrete store. -/
theorem render_paint_order_witness :
    (∃ d, fC9.get_doll 0 = some d ∧
      matC9.slots = materialSlotsInOrder fC9 [] false d.slots) ∧
    fC9.render 0 [] =
      .ok (paintInOrder (blankCanvas matC9) (dollPieceList matC9 ++ matC9.slots)) :=
  render_paint_order fC9 0 [] matC9 (by decide)

theorem writeChunk_nil (l : List Nat) (pos : Nat) : writeChunk l pos [] = l := by
  simp [writeChunk]

theorem copyLoop_stop (dstRow srcRow w : Nat) (srcPx : List Nat) (fuel : Nat)
    (dstPx : List Nat) (dc sc : Nat)
    (h : ¬(dc < dstPx.length ∧ sc < srcPx.length)) :
    copyLoop dstRow srcRow w srcPx fuel dstPx dc sc = some dstPx := by
  cases fuel with
  | zero => exact if_neg h
  | succ n => exact if_neg h

theorem copyLoop_zero_width (dstRow srcRow : Nat) (srcPx : List Nat) (hrow : 1 ≤ dstRow) :
    ∀ (fuel : Nat) (dstPx : List Nat) (dc sc : Nat), dstPx.length < dc + fuel →
      copyLoop dstRow srcRow 0 srcPx fuel dstPx dc sc = some dstPx := by
  intro fuel
  induction fuel with
  | zero =>
    intro dstPx dc sc hlt
    exact copyLoop_stop _ _ _ _ _ _ _ _ (by omega)
  | succ n ih =>
    intro dstPx dc sc hlt
    by_cases hcond : dc < dstPx.length ∧ sc < srcPx.length
    · unfold copyLoop
      rw [if_pos hcond, if_pos (by omega)]
      have hchunk : blend_alpha_over ((dstPx.drop dc).take 0) ((srcPx.drop sc).take 0) = [] := by
        simp [blend_alpha_over]
      rw [hchunk, writeChunk_nil]
      exact ih dstPx (dc + dstRow) (sc + srcRow) (by omega)
    · exact copyLoop_stop _ _ _ _ _ _ _ _ hcond

/-- Claim C10: painting a piece with an empty image, or one whose placed
rectangle lies entirely outside the canvas, leaves the canvas unchanged; the
image buffers are assumed consistent with their declared dimensions (as the
render canvas always is). -/
theorem copy_offcanvas_noop (dst src : ImageData) (dx dy : Int)
    (hdst : dst.pixels.length = dst.width * dst.height * 4)
    (hsrc : src.pixels.length = src.width * src.height * 4)
    (h : src.pixels = [] ∨ (dst.width : Int) ≤ dx ∨ dx + (src.width : Int) ≤ 0 ∨
        (dst.height : Int) ≤ dy ∨ dy + (src.height : Int) ≤ 0) :
    copy_pixels dst src dx dy = some dst := by
  by_cases hemp : src.is_empty = true
  · unfold copy_pixels
    rw [if_pos hemp]
  · have hpne : src.pixels ≠ [] := fun hp => hemp ((ImageData.is_empty_iff _).mpr hp)
    by_cases hskip : (dst.width : Int) ≤ dx ∨ dx + (src.width : Int) < 0 ∨
        (dst.height : Int) ≤ dy ∨ dy + (src.height : Int) < 0
    · unfold copy_pixels
      rw [if_neg hemp, if_pos hskip]
    · have hsw : 1 ≤ src.width := by
        by_contra hw
        have h0 : src.width = 0 := by omega
        have hlen : src.pixels.length = 0 := by rw [hsrc, h0]; simp
        exact hpne (List.length_eq_zero.mp hlen)
      have hsh : 1 ≤ src.height := by
        by_contra hw
        have h0 : src.height = 0 := by omega
        have hlen : src.pixels.length = 0 := by rw [hsrc, h0]; simp
        exact hpne (List.length_eq_zero.mp hlen)
      push_neg at hskip
      obtain ⟨h1, h2, h3, h4⟩ := hskip
      unfold copy_pixels
      rw [if_neg hemp, if_neg (by push_neg; exact ⟨h1, h2, h3, h4⟩)]
      dsimp only
      rcases h with hone | hone | hone | hone | hone
      · exact absurd hone hpne
      · exact absurd hone (by omega)
      · have hsx : clipSx dx = src.width := by
          unfold clipSx
          rw [if_neg (by omega)]
          omega
        have hw0 : min (src.width - clipSx dx) (dst.width - dx.toNat) * 4 = 0 := by
          rw [hsx]
          simp
        rw [hw0]
        by_cases hwidth : dst.width = 0
        · rw [copyLoop_stop _ _ _ _ _ _ _ _ (by
            have hlen : dst.pixels.length = 0 := by rw [hdst, hwidth]; simp
            omega)]
        · rw [copyLoop_zero_width _ _ _ (by omega) _ _ _ _ (by omega)]
      · exact absurd hone (by omega)
      · have hsy : clipSx dy = src.height := by
          unfold clipSx
          rw [if_neg (by omega)]
          omega
        rw [copyLoop_stop _ _ _ _ _ _ _ _ (by
          rw [hsy]
          have hmul : src.height * (src.width * 4) = src.width * src.height * 4 := by ring
          omega)]

/-- Witness for claim C10: a 10 x 10 image placed at (-500, -500) on a
100 x 100 canvas leaves the canvas unchanged. -/
theorem copy_offcanvas_noop_witness :
    copy_pixels canvas100 img10 (-500) (-500) = some canvas100 :=
  copy_offcanvas_noop canvas100 img10 (-500) (-500)
    (by norm_num [canvas100])
    (by norm_num [img10])
    (Or.inr (Or.inr (Or.inl (by norm_num [img10]))))

/-- Claim C3 is violated by the code: on this store `analyse` succeeds (the
constrained slot box is 2 x 1 while the fragment is natively 1 x 1 with a
four-byte payload), and the pixel-copy loop of `render` then takes the source
slice `[0 .. 8)` on that four-byte buffer, an out-of-bounds access modelled
here as the `none` outcome. -/
theorem render_constrained_oob :
    fC3.analyse 0 [(8, 9)] false = .ok matC3 ∧ fC3.render 0 [(8, 9)] = .ok none := by
  decide
